import Mathlib

/-!
Verification of the Impetus drag/inertia tracker.

The repository contains two implementation variants of the same machine:
* `src/src/Impetus.js` (also bundled first in `dist/impetus.js`): the 1-D
  attractor/snap variant (`considerAttractors`, `width` grid, no
  `decelerating` flag, unvalidated constructor, unchecked `setX`).
* the second bundle inside `dist/impetus.js`: the classic 2-D free-decay
  variant (`friction`, `stopThreshold`, `decelerating` flag, validated
  constructor, type-checked `setValues`).

JavaScript numbers are embedded as rationals (`ℚ`); where a division can
produce `Infinity`/`NaN` (the release-velocity computation) we use an
explicit `JSNum` type mirroring IEEE special values and JS truthiness.
Event-driven state is embedded as explicit state records with one Lean
function per source handler; callbacks are modelled as returned payloads.
-/

namespace Impetus

/-- One entry of `trackingPoints`: `{x, y, time}` as pushed by
`addTrackingPoint` (the attractor variant stores no `y`; it is carried
along unused there). -/
structure TrackPoint where
  x : ℚ
  y : ℚ
  time : ℚ
deriving DecidableEq

/-- Result of one attractor settling step (`considerAttractors`):
either the run stops, with the position snapped to an attractor and the
velocity zeroed, or it continues with the integrated position/velocity.
Both branches of the source invoke the update callback exactly once with
the resulting position. -/
inductive StepResult where
  | stop (pos : ℚ)
  | next (pos vel : ℚ)
deriving DecidableEq

/-- Embedding of `considerAttractors(position, velocity)` from
`src/src/Impetus.js` lines 238-277.  `width` is the construction-time
attractor period; the two closures' mutations of `velocityX`/`positionX`
are returned in the `StepResult`.  Constants: ACCELERATION = 3,
SLOWING_FACTOR = 0.92, SPEED_THRESHOLD = DISTANCE_THRESHOLD = 0.04*width. -/
def considerAttractors (width position velocity : ℚ) : StepResult :=
  let midPosition := position + velocity / 2
  let attractor0 : ℚ := (⌊midPosition / width⌋ : ℚ) * width
  let attractor1 := attractor0 + width
  let distance0 := midPosition - attractor0
  let distance1 := width - distance0
  let velocityX := (velocity + (distance0 - distance1) / width * 3) * (92 / 100)
  let positionX := position + velocityX
  if velocity > -(4 / 100 * width) ∧ positionX < attractor0 + 4 / 100 * width then
    .stop attractor0
  else if velocity < 4 / 100 * width ∧ positionX > attractor1 - 4 / 100 * width then
    .stop attractor1
  else
    .next positionX velocityX

/-- The settling loop `stepDecelAnim -> considerAttractors -> requestAnimationFrame
-> stepDecelAnim ...` of the attractor variant, run for at most `fuel`
frames.  `some pf` means the run terminated (snapped) at position `pf`
within the fuel; `none` means it was still running. -/
def settleRun (width : ℚ) : ℕ → ℚ → ℚ → Option ℚ
  | 0, _, _ => none
  | fuel + 1, p, v =>
    match considerAttractors width p v with
    | .stop pf => some pf
    | .next p2 v2 => settleRun width fuel p2 v2

lemma considerAttractors_stop_eq (width q u r : ℚ)
    (h : considerAttractors width q u = .stop r) :
    r = (⌊(q + u / 2) / width⌋ : ℚ) * width ∨
    r = (⌊(q + u / 2) / width⌋ : ℚ) * width + width := by
  simp only [considerAttractors] at h
  split at h
  · exact Or.inl (by injection h with h2; exact h2.symm)
  · split at h
    · exact Or.inr (by injection h with h2; exact h2.symm)
    · simp at h

lemma considerAttractors_stop_multiple (width q u r : ℚ)
    (h : considerAttractors width q u = .stop r) :
    ∃ n : ℤ, r = (n : ℚ) * width := by
  rcases considerAttractors_stop_eq width q u r h with h2 | h2
  · exact ⟨⌊(q + u / 2) / width⌋, h2⟩
  · refine ⟨⌊(q + u / 2) / width⌋ + 1, ?_⟩
    rw [h2]
    push_cast
    ring

/-- C1: in attractor mode each settling step computes the midpoint
`position + velocity/2`, the bracketing attractors
`attractor0 = floor(midpoint/width)*width` and `attractor1 = attractor0 + width`,
updates the velocity by `(distance0 - distance1)/width * 3`, scales it by
0.92, integrates the position, and tests termination against the step's
pre-update velocity; a terminating step snaps exactly to `attractor0` or
`attractor1`, so the final position of every terminating settle run is an
exact integer multiple of `width`. -/
theorem settleRun_terminal_attractor (width p v pf : ℚ) (fuel : ℕ)
    (h : settleRun width fuel p v = some pf) :
    (∃ n : ℤ, pf = (n : ℚ) * width) ∧
    (∀ q u r : ℚ, considerAttractors width q u = .stop r →
      r = (⌊(q + u / 2) / width⌋ : ℚ) * width ∨
      r = (⌊(q + u / 2) / width⌋ : ℚ) * width + width) := by
  refine ⟨?_, fun q u r hr => considerAttractors_stop_eq width q u r hr⟩
  induction fuel generalizing p v with
  | zero => simp [settleRun] at h
  | succ n ih =>
    cases hc : considerAttractors width p v with
    | stop pf2 =>
      simp only [settleRun, hc, Option.some.injEq] at h
      exact h ▸ considerAttractors_stop_multiple width p v pf2 hc
    | next p2 v2 =>
      simp only [settleRun, hc] at h
      exact ih p2 v2 h

/-- Witness for C1: releasing at position 0.01 with velocity 0 on a unit
attractor grid snaps to attractor 0 in one step, an integer multiple of
the width. -/
theorem settleRun_terminal_attractor_witness :
    settleRun 1 1 (1 / 100) 0 = some 0 ∧
    ((∃ n : ℤ, (0 : ℚ) = (n : ℚ) * 1) ∧
     (∀ q u r : ℚ, considerAttractors 1 q u = .stop r →
       r = (⌊(q + u / 2) / 1⌋ : ℚ) * 1 ∨
       r = (⌊(q + u / 2) / 1⌋ : ℚ) * 1 + 1)) :=
  ⟨by norm_num [settleRun, considerAttractors],
   settleRun_terminal_attractor 1 (1 / 100) 0 0 1
     (by norm_num [settleRun, considerAttractors])⟩

/-- Animation-time state of the free-decay variant (second bundle of
`dist/impetus.js`): per-axis decay velocities `decVelX`/`decVelY` and the
externally visible positions `targetX`/`targetY`. -/
structure FreeState where
  decVelX : ℚ
  decVelY : ℚ
  targetX : ℚ
  targetY : ℚ
deriving DecidableEq

/-- Embedding of the body of `stepDecelAnim` (free-decay variant,
`dist/impetus.js` lines 604-621) after the `decelerating` guard has
passed: multiply each velocity by `friction`, add it to the target, then
either invoke the callback and reschedule (velocity above `stopThreshold`
on some axis) or stop silently.  Returns
(new state, callback payload if any, reschedule flag). -/
def stepDecelAnim (friction stopThreshold : ℚ) (s : FreeState) :
    FreeState × Option (ℚ × ℚ) × Bool :=
  let decVelX := s.decVelX * friction
  let decVelY := s.decVelY * friction
  let targetX := s.targetX + decVelX
  let targetY := s.targetY + decVelY
  if |decVelX| > stopThreshold ∨ |decVelY| > stopThreshold then
    (⟨decVelX, decVelY, targetX, targetY⟩, some (targetX, targetY), true)
  else
    (⟨decVelX, decVelY, targetX, targetY⟩, none, false)

/-- The state after `n` frames of the free-decay animation. -/
def decelIterate (friction stopThreshold : ℚ) : ℕ → FreeState → FreeState
  | 0, s => s
  | n + 1, s => decelIterate friction stopThreshold n (stepDecelAnim friction stopThreshold s).1

lemma stepDecelAnim_velX (f th : ℚ) (s : FreeState) :
    (stepDecelAnim f th s).1.decVelX = s.decVelX * f := by
  simp only [stepDecelAnim]; split <;> rfl

lemma stepDecelAnim_velY (f th : ℚ) (s : FreeState) :
    (stepDecelAnim f th s).1.decVelY = s.decVelY * f := by
  simp only [stepDecelAnim]; split <;> rfl

lemma stepDecelAnim_targX (f th : ℚ) (s : FreeState) :
    (stepDecelAnim f th s).1.targetX = s.targetX + s.decVelX * f := by
  simp only [stepDecelAnim]; split <;> rfl

lemma stepDecelAnim_targY (f th : ℚ) (s : FreeState) :
    (stepDecelAnim f th s).1.targetY = s.targetY + s.decVelY * f := by
  simp only [stepDecelAnim]; split <;> rfl

lemma stepDecelAnim_flag (f th : ℚ) (s : FreeState) :
    (stepDecelAnim f th s).2.2 = true ↔
      |s.decVelX * f| > th ∨ |s.decVelY * f| > th := by
  simp only [stepDecelAnim]
  split <;> simp_all

lemma decelIterate_vel (f th : ℚ) (n : ℕ) (s : FreeState) :
    (decelIterate f th n s).decVelX = s.decVelX * f ^ n ∧
    (decelIterate f th n s).decVelY = s.decVelY * f ^ n := by
  induction n generalizing s with
  | zero => simp [decelIterate]
  | succ k ih =>
    constructor
    · rw [decelIterate, (ih _).1, stepDecelAnim_velX, pow_succ]; ring
    · rw [decelIterate, (ih _).2, stepDecelAnim_velY, pow_succ]; ring

/-- C3: each free-decay step multiplies each axis velocity by `friction`
before adding it to the position, so with `0 < friction < 1` the
magnitude is strictly decreasing; the step reschedules exactly while
some axis velocity magnitude strictly exceeds `stopThreshold`, a
non-rescheduling step emits no callback, and from any start state some
finite frame count reaches a non-rescheduling (terminating) step. -/
theorem stepDecelAnim_decay_terminates (f th : ℚ) (s s2 : FreeState) (v : ℚ)
    (hf0 : 0 < f) (hf1 : f < 1) (hth : 0 < th) (hv : v ≠ 0) :
    (stepDecelAnim f th s).1.decVelX = s.decVelX * f ∧
    (stepDecelAnim f th s).1.decVelY = s.decVelY * f ∧
    (stepDecelAnim f th s).1.targetX = s.targetX + s.decVelX * f ∧
    (stepDecelAnim f th s).1.targetY = s.targetY + s.decVelY * f ∧
    |v * f| < |v| ∧
    ((stepDecelAnim f th s).2.2 = true ↔
      |s.decVelX * f| > th ∨ |s.decVelY * f| > th) ∧
    ((stepDecelAnim f th s).2.2 = false → (stepDecelAnim f th s).2.1 = none) ∧
    (∃ N, (stepDecelAnim f th (decelIterate f th N s2)).2.2 = false) := by
  refine ⟨stepDecelAnim_velX f th s, stepDecelAnim_velY f th s,
    stepDecelAnim_targX f th s, stepDecelAnim_targY f th s, ?_,
    stepDecelAnim_flag f th s, ?_, ?_⟩
  · rw [abs_mul, abs_of_pos hf0]
    exact mul_lt_of_lt_one_right (abs_pos.2 hv) hf1
  · intro h
    have hc : ¬ (|s.decVelX * f| > th ∨ |s.decVelY * f| > th) := by
      intro hcond
      have h2 := (stepDecelAnim_flag f th s).2 hcond
      rw [h] at h2
      exact Bool.false_ne_true h2
    simp [stepDecelAnim, hc]
  · have hM0 : (0:ℚ) ≤ max |s2.decVelX| |s2.decVelY| :=
      le_trans (abs_nonneg _) (le_max_left _ _)
    set M := max |s2.decVelX| |s2.decVelY| with hMdef
    have hpos : (0:ℚ) < th / (M + 1) := by positivity
    obtain ⟨n, hn⟩ := exists_pow_lt_of_lt_one hpos hf1
    have key : ∀ w : ℚ, |w| ≤ M → |w * f ^ n * f| ≤ th := by
      intro w hw
      have hfn : (0:ℚ) < f ^ n := pow_pos hf0 n
      have h2 : f ^ n * f ≤ f ^ n := by nlinarith
      have hn2 : f ^ n * (M + 1) < th := (lt_div_iff₀ (by positivity)).1 hn
      have habs : |w * f ^ n * f| = |w| * (f ^ n * f) := by
        rw [mul_assoc, abs_mul, abs_of_pos (show (0:ℚ) < f ^ n * f by positivity)]
      rw [habs]
      have hfnf : (0:ℚ) < f ^ n * f := by positivity
      calc |w| * (f ^ n * f) ≤ M * (f ^ n * f) :=
              mul_le_mul_of_nonneg_right hw (le_of_lt hfnf)
        _ ≤ M * f ^ n := mul_le_mul_of_nonneg_left h2 hM0
        _ ≤ th := by nlinarith
    refine ⟨n, ?_⟩
    have hvx := (decelIterate_vel f th n s2).1
    have hvy := (decelIterate_vel f th n s2).2
    cases hflag : (stepDecelAnim f th (decelIterate f th n s2)).2.2 with
    | false => rfl
    | true =>
      exfalso
      rcases (stepDecelAnim_flag f th _).1 hflag with hgt | hgt
      · rw [hvx] at hgt
        exact absurd hgt (not_lt.2 (key _ (le_max_left _ _)))
      · rw [hvy] at hgt
        exact absurd hgt (not_lt.2 (key _ (le_max_right _ _)))

/-- Witness for C3 at `friction = 1/2`, `stopThreshold = 1`, starting
velocities `(4, 0)`. -/
theorem stepDecelAnim_decay_terminates_witness :
    (stepDecelAnim (1/2) 1 ⟨4, 0, 0, 0⟩).1.decVelX = (4:ℚ) * (1/2) ∧
    (stepDecelAnim (1/2) 1 ⟨4, 0, 0, 0⟩).1.decVelY = (0:ℚ) * (1/2) ∧
    (stepDecelAnim (1/2) 1 ⟨4, 0, 0, 0⟩).1.targetX = (0:ℚ) + 4 * (1/2) ∧
    (stepDecelAnim (1/2) 1 ⟨4, 0, 0, 0⟩).1.targetY = (0:ℚ) + 0 * (1/2) ∧
    |(4:ℚ) * (1/2)| < |(4:ℚ)| ∧
    ((stepDecelAnim (1/2) 1 ⟨4, 0, 0, 0⟩).2.2 = true ↔
      |(4:ℚ) * (1/2)| > 1 ∨ |(0:ℚ) * (1/2)| > 1) ∧
    ((stepDecelAnim (1/2) 1 ⟨4, 0, 0, 0⟩).2.2 = false →
      (stepDecelAnim (1/2) 1 ⟨4, 0, 0, 0⟩).2.1 = none) ∧
    (∃ N, (stepDecelAnim (1/2) 1 (decelIterate (1/2) 1 N ⟨4, 0, 0, 0⟩)).2.2 = false) :=
  stepDecelAnim_decay_terminates (1/2) 1 ⟨4, 0, 0, 0⟩ ⟨4, 0, 0, 0⟩ 4
    (by norm_num) (by norm_num) (by norm_num) (by norm_num)

/-- C9: a terminating free-decay step (reschedule flag false) still adds
the decayed velocity to the internal position but emits no callback, so
the internal position ends one sub-threshold increment past the last
reported one; every rescheduling step reports exactly the post-update
position, so the unreported increment shows up in the next callback of a
later run. -/
theorem stepDecelAnim_silent_final_increment (f th : ℚ) (s s2 : FreeState)
    (h : (stepDecelAnim f th s).2.2 = false)
    (h2 : (stepDecelAnim f th s2).2.2 = true) :
    (stepDecelAnim f th s).1.targetX = s.targetX + s.decVelX * f ∧
    (stepDecelAnim f th s).1.targetY = s.targetY + s.decVelY * f ∧
    (stepDecelAnim f th s).2.1 = none ∧
    ¬ (|s.decVelX * f| > th) ∧ ¬ (|s.decVelY * f| > th) ∧
    (stepDecelAnim f th s2).2.1 =
      some ((stepDecelAnim f th s2).1.targetX, (stepDecelAnim f th s2).1.targetY) := by
  have hc : ¬ (|s.decVelX * f| > th ∨ |s.decVelY * f| > th) := by
    intro hcond
    have hx := (stepDecelAnim_flag f th s).2 hcond
    rw [h] at hx
    exact Bool.false_ne_true hx
  have hc2 : |s2.decVelX * f| > th ∨ |s2.decVelY * f| > th :=
    (stepDecelAnim_flag f th s2).1 h2
  refine ⟨stepDecelAnim_targX f th s, stepDecelAnim_targY f th s, ?_,
    fun hx => hc (Or.inl hx), fun hy => hc (Or.inr hy), ?_⟩
  · simp [stepDecelAnim, hc]
  · simp [stepDecelAnim, hc2]

/-- Witness for C9: with `friction = 1/2`, `stopThreshold = 1`, a step
from velocity `(1, 0)` terminates silently while one from `(4, 0)`
reschedules and reports. -/
theorem stepDecelAnim_silent_final_increment_witness :
    (stepDecelAnim (1/2) 1 ⟨1, 0, 10, 0⟩).1.targetX = (10:ℚ) + 1 * (1/2) ∧
    (stepDecelAnim (1/2) 1 ⟨1, 0, 10, 0⟩).1.targetY = (0:ℚ) + 0 * (1/2) ∧
    (stepDecelAnim (1/2) 1 ⟨1, 0, 10, 0⟩).2.1 = none ∧
    ¬ (|(1:ℚ) * (1/2)| > 1) ∧ ¬ (|(0:ℚ) * (1/2)| > 1) ∧
    (stepDecelAnim (1/2) 1 ⟨4, 0, 0, 0⟩).2.1 =
      some ((stepDecelAnim (1/2) 1 ⟨4, 0, 0, 0⟩).1.targetX,
            (stepDecelAnim (1/2) 1 ⟨4, 0, 0, 0⟩).1.targetY) :=
  stepDecelAnim_silent_final_increment (1/2) 1 ⟨1, 0, 10, 0⟩ ⟨4, 0, 0, 0⟩
    (by norm_num [stepDecelAnim, abs_of_pos, abs_of_nonneg])
    (by norm_num [stepDecelAnim, abs_of_pos, abs_of_nonneg])

/-- Event-level state of the free-decay variant: the closure variables
`pointerActive`, `paused`, `decelerating`, the animation state, and the
two listener groups — `downListeners` are the attach-time
`touchstart`/`mousedown` listeners on the source element,
`docListeners` the document-level move/up/cancel listeners added by
`onDown`.  Pointer coordinates and the tracking-point buffer are
modelled separately (`addTrackingPoint`, `startDecelAnimFree`). -/
structure Machine where
  targetX : ℚ
  targetY : ℚ
  decVelX : ℚ
  decVelY : ℚ
  pointerActive : Bool
  paused : Bool
  decelerating : Bool
  downListeners : Bool
  docListeners : Bool
deriving DecidableEq

/-- Embedding of `onDown` (free-decay variant, `dist/impetus.js` lines
471-490).  The event reaches the handler only while the element
listeners are registered; an accepted pointer-down activates the
session, clears `decelerating`, and registers the document listeners. -/
def onDown (s : Machine) : Machine :=
  if s.downListeners = true ∧ s.pointerActive = false ∧ s.paused = false then
    { s with pointerActive := true, decelerating := false, docListeners := true }
  else s

/-- Embedding of `stepDecelAnim` including its `decelerating` guard
(`dist/impetus.js` lines 604-621), at machine level: a step of a
cancelled run returns immediately with no state change and no
callback. -/
def stepDecelAnimM (friction stopThreshold : ℚ) (s : Machine) : Machine × Option (ℚ × ℚ) :=
  if s.decelerating = false then (s, none)
  else
    let vx := s.decVelX * friction
    let vy := s.decVelY * friction
    let px := s.targetX + vx
    let py := s.targetY + vy
    if |vx| > stopThreshold ∨ |vy| > stopThreshold then
      ({ s with decVelX := vx, decVelY := vy, targetX := px, targetY := py }, some (px, py))
    else
      ({ s with decVelX := vx, decVelY := vy, targetX := px, targetY := py,
                decelerating := false }, none)

/-- Embedding of `destroy` (`dist/impetus.js` lines 385-393 and
`src/src/Impetus.js` lines 39-47): removes the element-level
`touchstart`/`mousedown` listeners and returns `null` (modelled as
`none`); nothing else is touched. -/
def destroy (s : Machine) : Machine × Option Unit :=
  ({ s with downListeners := false }, none)

/-- Event-level state of the attractor variant (`src/src/Impetus.js`):
there is no `decelerating` flag at all. -/
structure AttrMachine where
  positionX : ℚ
  velocityX : ℚ
  pointerActive : Bool
  paused : Bool
deriving DecidableEq

/-- Embedding of `onDown` of the attractor variant
(`src/src/Impetus.js` lines 117-134): an accepted pointer-down activates
the session but cancels nothing (there is no flag to clear). -/
def onDownA (s : AttrMachine) : AttrMachine :=
  if s.pointerActive = false ∧ s.paused = false then
    { s with pointerActive := true }
  else s

/-- Embedding of `stepDecelAnim` of the attractor variant
(`src/src/Impetus.js` lines 282-284): it runs `considerAttractors`
unconditionally — no guard consults the pointer state — and every step
invokes the callback exactly once. -/
def stepDecelAnimA (width : ℚ) (s : AttrMachine) : AttrMachine × Option ℚ :=
  match considerAttractors width s.positionX s.velocityX with
  | .stop pf => ({ s with positionX := pf, velocityX := 0 }, some pf)
  | .next p v => ({ s with positionX := p, velocityX := v }, some p)

/-- Counterexample to C5: in the attractor variant a settling step
pending at an accepted pointer-down still runs, changes the position
(here from 1/2 to the attractor 1) and invokes the callback — the claim
that a pointer-down cancels the run in both decay modes is false. -/
theorem settle_step_survives_pointer_down :
    (onDownA ⟨1/2, 1, false, false⟩).pointerActive = true ∧
    (stepDecelAnimA 1 (onDownA ⟨1/2, 1, false, false⟩)).1.positionX ≠
      (onDownA ⟨1/2, 1, false, false⟩).positionX ∧
    (stepDecelAnimA 1 (onDownA ⟨1/2, 1, false, false⟩)).2 ≠ none := by
  have h1 : onDownA ⟨1/2, 1, false, false⟩ = ⟨1/2, 1, true, false⟩ := by
    norm_num [onDownA]
  have h2 : considerAttractors 1 (1/2) 1 = .stop 1 := by
    norm_num [considerAttractors]
  rw [h1]
  refine ⟨rfl, ?_, ?_⟩
  · show (stepDecelAnimA 1 ⟨1/2, 1, true, false⟩).1.positionX ≠ 1/2
    simp only [stepDecelAnimA, h2]
    norm_num
  · simp only [stepDecelAnimA, h2]
    simp

/-- C5 (amended to the free-decay variant, where the guard exists): an
accepted pointer-down clears `decelerating`, and a decay step taken in
any state with `decelerating = false` changes nothing and emits no
callback, so no step of the cancelled run moves the position or invokes
the callback. -/
theorem onDown_cancels_decel (f th : ℚ) (s : Machine)
    (hacc : s.downListeners = true ∧ s.pointerActive = false ∧ s.paused = false) :
    (onDown s).decelerating = false ∧
    ∀ s2 : Machine, s2.decelerating = false → stepDecelAnimM f th s2 = (s2, none) := by
  constructor
  · simp [onDown, hacc]
  · intro s2 h2
    simp [stepDecelAnimM, h2]

/-- Witness for C5's amended statement at a concrete idle state with an
in-flight decay run. -/
theorem onDown_cancels_decel_witness :
    ((onDown ⟨0, 0, 5, 5, false, false, true, true, false⟩).decelerating = false ∧
     ∀ s2 : Machine, s2.decelerating = false →
       stepDecelAnimM (92/100) (3/10) s2 = (s2, none)) :=
  onDown_cancels_decel (92/100) (3/10) ⟨0, 0, 5, 5, false, false, true, true, false⟩
    ⟨rfl, rfl, rfl⟩

/-- Counterexample to C6: `destroy` during an in-flight decay run does
not silence the tracker — the next decay step still emits a callback —
and `destroy` during an active session leaves the document-level
move/up listeners registered. -/
theorem destroy_does_not_silence :
    (stepDecelAnimM (92/100) (3/10)
      (destroy ⟨0, 0, 10, 10, false, false, true, true, false⟩).1).2 ≠ none ∧
    (destroy ⟨0, 0, 0, 0, true, false, false, true, true⟩).1.docListeners = true := by
  constructor
  · have h3 : (stepDecelAnimM (92/100) (3/10)
        (destroy ⟨0, 0, 10, 10, false, false, true, true, false⟩).1).2 =
          some (46/5, 46/5) := by
      norm_num [destroy, stepDecelAnimM, abs_of_pos, abs_of_nonneg]
    rw [h3]
    simp
  · rfl

/-- C6 (amended): `destroy` removes exactly the element-level
`touchstart`/`mousedown` listeners, is idempotent, and returns the null
sentinel; the document listeners of an active session and the
`decelerating` flag of an in-flight run are untouched, so callbacks can
still occur afterwards. -/
theorem destroy_removes_down_listeners (s : Machine) :
    destroy (destroy s).1 = destroy s ∧
    (destroy s).2 = none ∧
    (destroy s).1.downListeners = false ∧
    (destroy s).1.docListeners = s.docListeners ∧
    (destroy s).1.decelerating = s.decelerating ∧
    (destroy s).1.targetX = s.targetX ∧
    (destroy s).1.targetY = s.targetY := by
  exact ⟨rfl, rfl, rfl, rfl, rfl, rfl, rfl⟩

/-- JavaScript values as far as the position setters observe them:
numbers (including `NaN`, whose `typeof` is `"number"`), `undefined`,
and a representative non-numeric object (string). -/
inductive JSVal where
  | num (q : ℚ)
  | nan
  | undef
  | str
deriving DecidableEq

/-- The `typeof x === 'number'` test used by `setValues`. -/
def typeofNumber : JSVal → Bool
  | .num _ => true
  | .nan => true
  | _ => false

/-- Instance state visible to the position setters; everything except
the targets must be left untouched by them. -/
structure SetterState where
  targetX : JSVal
  targetY : JSVal
  decVelX : ℚ
  decVelY : ℚ
  multiplier : ℚ
  pointerActive : Bool
  paused : Bool
  trackingPoints : List TrackPoint
deriving DecidableEq

/-- Embedding of `setValues(x, y)` (free-decay variant,
`dist/impetus.js` lines 418-425): each axis is overwritten only when its
argument passes `typeof === 'number'`; no callback is invoked (the
returned `Bool` is the callback-invoked flag). -/
def setValues (x y : JSVal) (s : SetterState) : SetterState × Bool :=
  ({ s with
      targetX := if typeofNumber x then x else s.targetX,
      targetY := if typeofNumber y then y else s.targetY }, false)

/-- Embedding of `setX(x)` (attractor variant, `src/src/Impetus.js`
lines 71-73): `positionX = x` with no test at all. -/
def setX (x : JSVal) (s : SetterState) : SetterState × Bool :=
  ({ s with targetX := x }, false)

/-- Counterexample to C7: `setX` of the attractor variant performs no
validity test — a non-numeric argument (a string) overwrites the stored
position, where the claim says the position is left unchanged. -/
theorem setX_overwrites_any_value :
    typeofNumber JSVal.str = false ∧
    (setX JSVal.str ⟨JSVal.num 5, JSVal.num 0, 0, 0, 1, false, false, []⟩).1.targetX ≠
      JSVal.num 5 :=
  ⟨rfl, by simp [setX]⟩

/-- C7 (amended): `setValues` overwrites each axis exactly when its
argument has `typeof number` (which admits `NaN`), never invokes the
callback, and changes no other state; `setX` of the attractor variant
overwrites the position unconditionally, also without callback or other
state change. -/
theorem setters_no_callback (x y : JSVal) (s : SetterState) :
    (typeofNumber x = true → (setValues x y s).1.targetX = x) ∧
    (typeofNumber x = false → (setValues x y s).1.targetX = s.targetX) ∧
    (typeofNumber y = true → (setValues x y s).1.targetY = y) ∧
    (typeofNumber y = false → (setValues x y s).1.targetY = s.targetY) ∧
    (setValues x y s).2 = false ∧
    (setValues x y s).1.decVelX = s.decVelX ∧
    (setValues x y s).1.decVelY = s.decVelY ∧
    (setValues x y s).1.multiplier = s.multiplier ∧
    (setValues x y s).1.pointerActive = s.pointerActive ∧
    (setValues x y s).1.paused = s.paused ∧
    (setValues x y s).1.trackingPoints = s.trackingPoints ∧
    (setX x s).1.targetX = x ∧
    (setX x s).2 = false ∧
    (setX x s).1.trackingPoints = s.trackingPoints ∧
    (setX x s).1.multiplier = s.multiplier := by
  refine ⟨?_, ?_, ?_, ?_, rfl, rfl, rfl, rfl, rfl, rfl, rfl, rfl, rfl, rfl, rfl⟩ <;>
    intro h <;> simp [setValues, h]

/-- Concrete state used by the witness of the setter theorem. -/
def s7 : SetterState :=
  ⟨JSVal.num 1, JSVal.num 2, 3, 4, 5, false, true, [⟨0, 0, 0⟩]⟩

/-- Witness for C7's amended statement: a numeric x and an `undefined`
y against a concrete state. -/
theorem setters_no_callback_witness :
    (typeofNumber (JSVal.num 7) = true →
      (setValues (JSVal.num 7) JSVal.undef s7).1.targetX = JSVal.num 7) ∧
    (typeofNumber (JSVal.num 7) = false →
      (setValues (JSVal.num 7) JSVal.undef s7).1.targetX = s7.targetX) ∧
    (typeofNumber JSVal.undef = true →
      (setValues (JSVal.num 7) JSVal.undef s7).1.targetY = JSVal.undef) ∧
    (typeofNumber JSVal.undef = false →
      (setValues (JSVal.num 7) JSVal.undef s7).1.targetY = s7.targetY) ∧
    (setValues (JSVal.num 7) JSVal.undef s7).2 = false ∧
    (setValues (JSVal.num 7) JSVal.undef s7).1.decVelX = s7.decVelX ∧
    (setValues (JSVal.num 7) JSVal.undef s7).1.decVelY = s7.decVelY ∧
    (setValues (JSVal.num 7) JSVal.undef s7).1.multiplier = s7.multiplier ∧
    (setValues (JSVal.num 7) JSVal.undef s7).1.pointerActive = s7.pointerActive ∧
    (setValues (JSVal.num 7) JSVal.undef s7).1.paused = s7.paused ∧
    (setValues (JSVal.num 7) JSVal.undef s7).1.trackingPoints = s7.trackingPoints ∧
    (setX (JSVal.num 7) s7).1.targetX = JSVal.num 7 ∧
    (setX (JSVal.num 7) s7).2 = false ∧
    (setX (JSVal.num 7) s7).1.trackingPoints = s7.trackingPoints ∧
    (setX (JSVal.num 7) s7).1.multiplier = s7.multiplier :=
  setters_no_callback (JSVal.num 7) JSVal.undef s7

/-- Embedding of the pruning loop at the top of `addTrackingPoint`
(`dist/impetus.js` lines 540-550): shift samples from the front, one at
a time, while the front sample is older than 100 ms. -/
def pruneTrackingPoints (time : ℚ) (pts : List TrackPoint) : List TrackPoint :=
  pts.dropWhile (fun p => decide (100 < time - p.time))

/-- Embedding of `addTrackingPoint(x, y)`: prune, then push the new
sample stamped with the current time. -/
def addTrackingPoint (x y time : ℚ) (pts : List TrackPoint) : List TrackPoint :=
  pruneTrackingPoints time pts ++ [⟨x, y, time⟩]

lemma pruneTrackingPoints_cons_pos (time : ℚ) (a : TrackPoint) (l : List TrackPoint)
    (ha : 100 < time - a.time) :
    pruneTrackingPoints time (a :: l) = pruneTrackingPoints time l := by
  simp [pruneTrackingPoints, List.dropWhile_cons, ha]

lemma pruneTrackingPoints_cons_neg (time : ℚ) (a : TrackPoint) (l : List TrackPoint)
    (ha : ¬ 100 < time - a.time) :
    pruneTrackingPoints time (a :: l) = a :: l := by
  simp [pruneTrackingPoints, List.dropWhile_cons, ha]

lemma pruneTrackingPoints_dropped (time : ℚ) (pts : List TrackPoint) :
    ∃ dropped, pts = dropped ++ pruneTrackingPoints time pts ∧
      ∀ p ∈ dropped, 100 < time - p.time := by
  induction pts with
  | nil => exact ⟨[], rfl, by simp⟩
  | cons a l ih =>
    by_cases ha : 100 < time - a.time
    · obtain ⟨d, hd, hall⟩ := ih
      refine ⟨a :: d, ?_, ?_⟩
      · rw [pruneTrackingPoints_cons_pos time a l ha]
        conv_lhs => rw [hd]
        rfl
      · intro p hp
        rcases List.mem_cons.1 hp with h | h
        · subst h; exact ha
        · exact hall p h
    · exact ⟨[], by rw [pruneTrackingPoints_cons_neg time a l ha]; rfl, by simp⟩

lemma pruneTrackingPoints_window (time : ℚ) (pts : List TrackPoint)
    (hs : pts.Pairwise (fun a b => a.time ≤ b.time)) :
    ∀ p ∈ pruneTrackingPoints time pts, time - p.time ≤ 100 := by
  induction pts with
  | nil => simp [pruneTrackingPoints]
  | cons a l ih =>
    rcases List.pairwise_cons.1 hs with ⟨hab, hl⟩
    by_cases ha : 100 < time - a.time
    · rw [pruneTrackingPoints_cons_pos time a l ha]
      exact ih hl
    · rw [pruneTrackingPoints_cons_neg time a l ha]
      intro p hp
      rcases List.mem_cons.1 hp with h | h
      · subst h; linarith [not_lt.1 ha]
      · have h2 := hab p h
        have h3 := not_lt.1 ha
        linarith

/-- C8: every insertion leaves the buffer non-empty with the new sample
at the back; samples are removed only from the front, exactly those
whose age relative to the insertion time strictly exceeds 100 ms; with
time-ordered samples every retained sample lies within the trailing
100 ms window. -/
theorem addTrackingPoint_window (x y time : ℚ) (pts : List TrackPoint)
    (hs : pts.Pairwise (fun a b => a.time ≤ b.time)) :
    addTrackingPoint x y time pts ≠ [] ∧
    (addTrackingPoint x y time pts).getLast? = some ⟨x, y, time⟩ ∧
    (∃ dropped, pts = dropped ++ pruneTrackingPoints time pts ∧
      ∀ p ∈ dropped, 100 < time - p.time) ∧
    (∀ p ∈ addTrackingPoint x y time pts, p ∈ pts ∨ p = ⟨x, y, time⟩) ∧
    (∀ p ∈ addTrackingPoint x y time pts, time - p.time ≤ 100) := by
  refine ⟨by simp [addTrackingPoint], ?_, pruneTrackingPoints_dropped time pts, ?_, ?_⟩
  · rw [addTrackingPoint, List.getLast?_concat]
  · intro p hp
    rcases List.mem_append.1 hp with h | h
    · exact Or.inl ((List.dropWhile_sublist _).mem h)
    · exact Or.inr (List.mem_singleton.1 h)
  · intro p hp
    rcases List.mem_append.1 hp with h | h
    · exact pruneTrackingPoints_window time pts hs p h
    · rw [List.mem_singleton.1 h]
      norm_num

/-- Witness for C8: inserting at time 120 into a buffer holding samples
at times 0 (stale) and 50 (fresh). -/
theorem addTrackingPoint_window_witness :
    addTrackingPoint 2 0 120 [⟨0, 0, 0⟩, ⟨1, 0, 50⟩] ≠ [] ∧
    (addTrackingPoint 2 0 120 [⟨0, 0, 0⟩, ⟨1, 0, 50⟩]).getLast? = some ⟨2, 0, 120⟩ ∧
    (∃ dropped, [(⟨0, 0, 0⟩ : TrackPoint), ⟨1, 0, 50⟩] =
        dropped ++ pruneTrackingPoints 120 [⟨0, 0, 0⟩, ⟨1, 0, 50⟩] ∧
      ∀ p ∈ dropped, 100 < 120 - p.time) ∧
    (∀ p ∈ addTrackingPoint 2 0 120 [⟨0, 0, 0⟩, ⟨1, 0, 50⟩],
      p ∈ [(⟨0, 0, 0⟩ : TrackPoint), ⟨1, 0, 50⟩] ∨ p = ⟨2, 0, 120⟩) ∧
    (∀ p ∈ addTrackingPoint 2 0 120 [⟨0, 0, 0⟩, ⟨1, 0, 50⟩], 120 - p.time ≤ 100) :=
  addTrackingPoint_window 2 0 120 [⟨0, 0, 0⟩, ⟨1, 0, 50⟩]
    (by norm_num [List.pairwise_cons])

/-- A JavaScript number as produced by the release-velocity division:
either finite (a rational) or one of the IEEE special values. -/
inductive JSNum where
  | fin (q : ℚ)
  | posInf
  | negInf
  | nan
deriving DecidableEq

/-- JavaScript division of two finite numbers: `x/0` is `±Infinity` for
nonzero `x` and `NaN` for `0/0`. -/
def jsDiv (a b : ℚ) : JSNum :=
  if b = 0 then
    if a = 0 then .nan else if 0 < a then .posInf else .negInf
  else .fin (a / b)

/-- The `v || 0` coercion on the division result: only falsy values
(`NaN`, `0`, `-0`) are replaced by `0`; infinities are truthy and pass
through. -/
def jsOrZero : JSNum → JSNum
  | .nan => .fin 0
  | v => v

/-- The `Math.abs(v) > 1` test of the decay gate under JS comparison
semantics (`Infinity > 1` is true, any comparison on `NaN` is false). -/
def jsAbsGtOne : JSNum → Bool
  | .fin q => decide (1 < |q|)
  | .posInf => true
  | .negInf => true
  | .nan => false

/-- One axis of `startDecelAnim`: `offset / D || 0`. -/
def computeVelocity (offset d : ℚ) : JSNum :=
  jsOrZero (jsDiv offset d)

/-- Embedding of `startDecelAnim` (free-decay variant, `dist/impetus.js`
lines 582-599): velocities from the oldest and newest tracking points,
and the gate that schedules a decay run only when some axis velocity
magnitude exceeds 1.  Returns (decVelX, decVelY, run scheduled). -/
def startDecelAnimFree (multiplier : ℚ) (trackingPoints : List TrackPoint)
    (h : trackingPoints ≠ []) : JSNum × JSNum × Bool :=
  let firstPoint := trackingPoints.head h
  let lastPoint := trackingPoints.getLast h
  let xOffset := lastPoint.x - firstPoint.x
  let yOffset := lastPoint.y - firstPoint.y
  let timeOffset := lastPoint.time - firstPoint.time
  let d := timeOffset / 15 / multiplier
  let decVelX := computeVelocity xOffset d
  let decVelY := computeVelocity yOffset d
  (decVelX, decVelY, jsAbsGtOne decVelX || jsAbsGtOne decVelY)

/-- Embedding of `startDecelAnim` of the attractor variant
(`src/src/Impetus.js` lines 221-233): same velocity computation (1-D,
the `y` field is unused there), but the settling step is scheduled
unconditionally. -/
def startDecelAnimAttr (multiplier : ℚ) (trackingPoints : List TrackPoint)
    (h : trackingPoints ≠ []) : JSNum × Bool :=
  let firstPoint := trackingPoints.head h
  let lastPoint := trackingPoints.getLast h
  let xOffset := lastPoint.x - firstPoint.x
  let timeOffset := lastPoint.time - firstPoint.time
  let d := timeOffset / 15 / multiplier
  (computeVelocity xOffset d, true)

/-- Counterexample to C2: a nonzero offset over zero elapsed time
divides to `Infinity`, which is truthy and therefore NOT replaced by 0
by the `|| 0` guard (only `NaN` is); the infinite velocity also passes
the `> 1` gate, so a decay run is scheduled where the claim predicts
velocity 0 and no run. -/
theorem zero_time_flick_infinite_velocity :
    startDecelAnimFree 1 [⟨0, 0, 0⟩, ⟨1, 0, 0⟩] (List.cons_ne_nil _ _) =
      (JSNum.posInf, JSNum.fin 0, true) ∧
    JSNum.posInf ≠ JSNum.fin 0 := by
  constructor
  · have hlast : ([⟨0, 0, 0⟩, ⟨1, 0, 0⟩] : List TrackPoint).getLast
        (List.cons_ne_nil _ _) = ⟨1, 0, 0⟩ := rfl
    norm_num [startDecelAnimFree, computeVelocity, jsDiv, jsOrZero, jsAbsGtOne, hlast]
  · simp

/-- C2 (amended): the release velocity per axis is
`offset / ((Δt/15)/multiplier)` with only a `NaN` result (zero offset
over zero elapsed time) replaced by 0 — an infinite result is kept, and
counts as exceeding the decay gate; the free-decay variant schedules a
run exactly when some axis passes `Math.abs(v) > 1`, while the attractor
variant always schedules the settling step. -/
theorem startDecelAnim_release (m : ℚ) (hm : 0 < m)
    (pts : List TrackPoint) (h : pts ≠ []) :
    (∀ o t : ℚ, t ≠ 0 → computeVelocity o (t / 15 / m) = .fin (o * 15 * m / t)) ∧
    (∀ o : ℚ, computeVelocity o 0 =
      (if o = 0 then .fin 0 else if 0 < o then .posInf else .negInf)) ∧
    ((startDecelAnimFree m pts h).1 =
      computeVelocity ((pts.getLast h).x - (pts.head h).x)
        (((pts.getLast h).time - (pts.head h).time) / 15 / m)) ∧
    ((startDecelAnimFree m pts h).2.1 =
      computeVelocity ((pts.getLast h).y - (pts.head h).y)
        (((pts.getLast h).time - (pts.head h).time) / 15 / m)) ∧
    ((startDecelAnimFree m pts h).2.2 =
      (jsAbsGtOne (startDecelAnimFree m pts h).1 ||
       jsAbsGtOne (startDecelAnimFree m pts h).2.1)) ∧
    (∀ q : ℚ, jsAbsGtOne (JSNum.fin q) = decide (1 < |q|)) ∧
    jsAbsGtOne JSNum.posInf = true ∧
    ((startDecelAnimAttr m pts h).2 = true) := by
  refine ⟨?_, ?_, rfl, rfl, rfl, fun q => rfl, rfl, rfl⟩
  · intro o t ht
    have hd : t / 15 / m ≠ 0 := by
      apply div_ne_zero (div_ne_zero ht (by norm_num))
      exact ne_of_gt hm
    have heq : o / (t / 15 / m) = o * 15 * m / t := by
      field_simp
      ring
    simp [computeVelocity, jsDiv, jsOrZero, hd, heq]
  · intro o
    by_cases ho : o = 0
    · simp [computeVelocity, jsDiv, jsOrZero, ho]
    · by_cases ho2 : 0 < o <;> simp [computeVelocity, jsDiv, jsOrZero, ho, ho2]

/-- Witness for C2's amended statement: the spec's own scenario, 100
pixels over 50 ms at multiplier 1 (velocity 30, decay scheduled). -/
theorem startDecelAnim_release_witness :
    (∀ o t : ℚ, t ≠ 0 → computeVelocity o (t / 15 / 1) = .fin (o * 15 * 1 / t)) ∧
    (∀ o : ℚ, computeVelocity o 0 =
      (if o = 0 then .fin 0 else if 0 < o then .posInf else .negInf)) ∧
    ((startDecelAnimFree 1 [⟨0, 0, 0⟩, ⟨100, 0, 50⟩] (List.cons_ne_nil _ _)).1 =
      computeVelocity (100 - 0) ((50 - 0) / 15 / 1)) ∧
    ((startDecelAnimFree 1 [⟨0, 0, 0⟩, ⟨100, 0, 50⟩] (List.cons_ne_nil _ _)).2.1 =
      computeVelocity (0 - 0) ((50 - 0) / 15 / 1)) ∧
    ((startDecelAnimFree 1 [⟨0, 0, 0⟩, ⟨100, 0, 50⟩] (List.cons_ne_nil _ _)).2.2 =
      (jsAbsGtOne (startDecelAnimFree 1 [⟨0, 0, 0⟩, ⟨100, 0, 50⟩] (List.cons_ne_nil _ _)).1 ||
       jsAbsGtOne (startDecelAnimFree 1 [⟨0, 0, 0⟩, ⟨100, 0, 50⟩] (List.cons_ne_nil _ _)).2.1)) ∧
    (∀ q : ℚ, jsAbsGtOne (JSNum.fin q) = decide (1 < |q|)) ∧
    jsAbsGtOne JSNum.posInf = true ∧
    ((startDecelAnimAttr 1 [⟨0, 0, 0⟩, ⟨100, 0, 50⟩] (List.cons_ne_nil _ _)).2 = true) :=
  startDecelAnim_release 1 (by norm_num) [⟨0, 0, 0⟩, ⟨100, 0, 50⟩] (List.cons_ne_nil _ _)

/-- Construction configuration of the free-decay variant as `init` sees
it: whether the `source` option resolved to an element, whether an
`update` callback was supplied, the multiplier, and the optional
`initialValues` array (slots model `initialValues[0]`/`[1]`, `none`
being an absent/undefined entry). -/
structure FreeConfig where
  sourceResolved : Bool
  hasUpdate : Bool
  multiplier : ℚ
  initialValues : Option (Option ℚ × Option ℚ)
deriving DecidableEq

/-- State produced by a successful free-decay `init`: seeded targets,
the derived stop threshold `0.3 * multiplier`, and whether the update
callback was invoked during construction. -/
structure FreeInitResult where
  targetX : ℚ
  targetY : ℚ
  stopThreshold : ℚ
  callbackEmitted : Bool
deriving DecidableEq

/-- The `if (initialValues[0]) targetX = initialValues[0]` seeding: a
falsy entry (absent or 0) leaves the axis at its default 0. -/
def entryTarget : Option ℚ → ℚ
  | some q => if q ≠ 0 then q else 0
  | none => 0

/-- Embedding of `init` of the free-decay variant (`dist/impetus.js`
lines 356-378): fails fast when the source is absent or the update
callback missing; a truthy `initialValues` array seeds the targets from
its truthy entries and invokes the callback once. -/
def initFree (c : FreeConfig) : Except String FreeInitResult :=
  if c.sourceResolved = false then .error "IMPETUS: source not found."
  else if c.hasUpdate = false then .error "IMPETUS: update function not defined."
  else
    match c.initialValues with
    | some (e0, e1) => .ok ⟨entryTarget e0, entryTarget e1, 3 / 10 * c.multiplier, true⟩
    | none => .ok ⟨0, 0, 3 / 10 * c.multiplier, false⟩

/-- Construction configuration of the attractor variant
(`src/src/Impetus.js`): source resolution, presence of the `update`
callback, and the initial `positionX` (default 0). -/
structure AttrConfig where
  sourceResolved : Bool
  hasUpdate : Bool
  positionX : ℚ
deriving DecidableEq

/-- Embedding of `init` of the attractor variant (`src/src/Impetus.js`
lines 23-32).  There is no validation: construction only fails through
a runtime `TypeError`, either from calling a missing update callback
(which happens only when `positionX !== 0` triggers the construction
callback) or from `addEventListener` on a null source, in that order.
Returns the position and whether the callback was invoked. -/
def initAttr (c : AttrConfig) : Except String (ℚ × Bool) :=
  if c.positionX ≠ 0 ∧ c.hasUpdate = false then
    .error "TypeError: updateCallback is not a function"
  else if c.sourceResolved = false then
    .error "TypeError: sourceEl is null"
  else .ok (c.positionX, decide (c.positionX ≠ 0))

/-- Whether a construction attempt succeeded. -/
def exceptOk {α : Type} : Except String α → Bool
  | .ok _ => true
  | .error _ => false

/-- Counterexample to C4: the attractor variant validates nothing — with
the source present, the update callback missing and a zero initial
position, construction succeeds instead of reporting a configuration
error (the missing callback only blows up later, at the first update).  -/
theorem initAttr_accepts_missing_update :
    (AttrConfig.mk true false 0).hasUpdate = false ∧
    initAttr (AttrConfig.mk true false 0) = .ok (0, false) := by
  refine ⟨rfl, ?_⟩
  norm_num [initAttr]

/-- C4 (amended): the free-decay variant's construction fails exactly
when the source element is absent or the update callback is missing;
the attractor variant's construction fails exactly when the source is
absent or a nonzero initial position forces a construction callback
with the update callback missing. -/
theorem init_validation :
    (∀ c : FreeConfig, exceptOk (initFree c) = (c.sourceResolved && c.hasUpdate)) ∧
    (∀ c : AttrConfig, exceptOk (initAttr c) =
      (c.sourceResolved && (decide (c.positionX = 0) || c.hasUpdate))) := by
  constructor
  · intro c
    rcases c with ⟨src, upd, m, iv⟩
    rcases iv with _ | ⟨e0, e1⟩ <;> cases src <;> cases upd <;>
      simp [initFree, exceptOk]
  · intro c
    rcases c with ⟨src, upd, px⟩
    by_cases hp : px = 0 <;> cases src <;> cases upd <;>
      simp [initAttr, exceptOk, hp]

/-- C10: construction invokes the callback synchronously exactly once
iff a truthy initial position is supplied — attractor variant:
`positionX !== 0`; free-decay variant: a truthy `initialValues` array
(regardless of its entries) — and a 0 entry inside `initialValues` is
falsy, so it does not overwrite the corresponding axis default. -/
theorem construction_callback :
    (∀ c : AttrConfig, c.sourceResolved = true → (c.positionX = 0 ∨ c.hasUpdate = true) →
      initAttr c = .ok (c.positionX, decide (c.positionX ≠ 0))) ∧
    (∀ c : FreeConfig, c.sourceResolved = true → c.hasUpdate = true →
      ((c.initialValues = none →
         initFree c = .ok ⟨0, 0, 3 / 10 * c.multiplier, false⟩) ∧
       (∀ e0 e1, c.initialValues = some (e0, e1) →
         initFree c = .ok ⟨entryTarget e0, entryTarget e1, 3 / 10 * c.multiplier, true⟩) ∧
       (∀ e1, c.initialValues = some (some 0, e1) →
         ∃ r, initFree c = .ok r ∧ r.callbackEmitted = true ∧ r.targetX = 0))) := by
  constructor
  · intro c hsrc hcase
    rcases c with ⟨src, upd, px⟩
    cases hsrc
    rcases hcase with hp | hu
    · cases hp
      simp [initAttr]
    · cases hu
      simp [initAttr]
  · intro c hsrc hupd
    rcases c with ⟨src, upd, m, iv⟩
    cases hsrc
    cases hupd
    refine ⟨?_, ?_, ?_⟩
    · intro hiv; cases hiv; simp [initFree]
    · intro e0 e1 hiv; cases hiv; simp [initFree]
    · intro e1 hiv
      cases hiv
      refine ⟨⟨entryTarget (some 0), entryTarget e1, 3 / 10 * m, true⟩, ?_, rfl, ?_⟩
      · simp [initFree]
      · simp [entryTarget]

/-- Witness for C10: attractor construction at `positionX = 5` (callback
fired) and free-decay construction with `initialValues = [0]` (callback
fired, axis default 0 kept). -/
theorem construction_callback_witness :
    initAttr (AttrConfig.mk true true 5) = .ok (5, decide ((5:ℚ) ≠ 0)) ∧
    (((FreeConfig.mk true true 2 (some (some 0, none))).initialValues = none →
       initFree (FreeConfig.mk true true 2 (some (some 0, none))) =
         .ok ⟨0, 0, 3 / 10 * 2, false⟩) ∧
     (∀ e0 e1,
       (FreeConfig.mk true true 2 (some (some 0, none))).initialValues = some (e0, e1) →
       initFree (FreeConfig.mk true true 2 (some (some 0, none))) =
         .ok ⟨entryTarget e0, entryTarget e1, 3 / 10 * 2, true⟩) ∧
     (∀ e1,
       (FreeConfig.mk true true 2 (some (some 0, none))).initialValues = some (some 0, e1) →
       ∃ r, initFree (FreeConfig.mk true true 2 (some (some 0, none))) = .ok r ∧
         r.callbackEmitted = true ∧ r.targetX = 0)) :=
  ⟨construction_callback.1 (AttrConfig.mk true true 5) rfl (Or.inr rfl),
   construction_callback.2 (FreeConfig.mk true true 2 (some (some 0, none))) rfl rfl⟩

end Impetus
